import Mathlib

/-
Shallow embedding of the capture-and-extraction core of the
RagnarokOnlinePlayerMonitor repository.

Source files embedded here:
  * go/network/connection.go : Payload, ConnectionKey, Connection,
    Connection.Key, Connection.GetIncomingDataSortedByLength
  * go/network capture file  : PacketCaptureService, handlePacket,
    StartCaptureAllInterfaces (error behaviour)
  * app.go                   : App.StopCapture, the consumer loop of
    App.StartCapture
  * frontend CharacterServerTable component : mapPlayersToStatusText

Modelling conventions: `[]byte` becomes `List Nat` (one Nat per byte, no
arithmetic is performed on byte values); `net.IP` is modelled by the string
rendered by its `String()` method, which is the only way the source ever
inspects an address; `time.Time` is an abstract tick `Nat`, and the up to
three `time.Now()` calls inside one `handlePacket` invocation are modelled
as a single instant `now` passed in by the caller; the Go `int` port is a
`Nat`, and the `layers.TCPPort(pcs.port)` conversion to `uint16` is the
truncation `% 65536`; a Go `map` is an association list whose insert
overwrites in place; a nilable Go slice result is an `Option`-free
`List` where `nil` and the empty slice coincide, except where nil-ness is
the tested signal, where `Option` is used.
-/

/-- go/network/connection.go: `type Payload = []byte`. -/
abbrev Payload := List Nat

/-- go/network/connection.go: `ConnectionKey` — the 4-tuple key of the flow
table, with addresses already rendered as strings. -/
structure ConnectionKey where
  SrcIP   : String
  DstIP   : String
  SrcPort : Nat
  DstPort : Nat
deriving DecidableEq

/-- go/network/connection.go: `Connection` — one observed flow record. -/
structure Connection where
  SrcIP        : String
  DstIP        : String
  SrcPort      : Nat
  DstPort      : Nat
  StartTime    : Nat
  LastSeen     : Nat
  IncomingData : List Payload
  IsFinished   : Bool
deriving DecidableEq

/-- go/network/connection.go: `func (c *Connection) Key() ConnectionKey`. -/
def Connection.Key (c : Connection) : ConnectionKey :=
  { SrcIP := c.SrcIP, DstIP := c.DstIP, SrcPort := c.SrcPort, DstPort := c.DstPort }

/-- The inner `for j` loop of `GetIncomingDataSortedByLength` for one value
of `i`: the first argument is the current content of slot `i`, the list is
the contents of slots `i+1 .. n-1`.  At each `j` the slot-`i` candidate is
swapped with `sortedPackets[j]` exactly when it is strictly shorter.  The
result is the final content of slot `i` and the final contents of the
remaining slots. -/
def innerLoop : Payload → List Payload → Payload × List Payload
  | x, [] => (x, [])
  | x, y :: ys =>
    if x.length < y.length then
      ((innerLoop y ys).1, x :: (innerLoop y ys).2)
    else
      ((innerLoop x ys).1, y :: (innerLoop x ys).2)

/-- The outer `for i` loop of `GetIncomingDataSortedByLength`, fuelled by
the number of outer iterations still available (the slice length on entry;
the source runs `i` up to `len-2`, and the extra fuel step performs the
vacuous last iteration). -/
def sortLoopAux : Nat → List Payload → List Payload
  | 0, l => l
  | _ + 1, [] => []
  | n + 1, x :: xs =>
    ((innerLoop x xs).1) :: sortLoopAux n (innerLoop x xs).2

/-- The complete double loop of `GetIncomingDataSortedByLength` acting on
the copied slice. -/
def sortLoop (l : List Payload) : List Payload :=
  sortLoopAux l.length l

/-- go/network/connection.go: `GetIncomingDataSortedByLength`.  The method
has a pointer receiver, so the embedding returns the produced slice
together with the state of the receiver after the call; the source only
writes into the fresh copy `sortedPackets`, never into `c`, hence the
second component is `c` itself. -/
def Connection.GetIncomingDataSortedByLength (c : Connection) : List Payload × Connection :=
  if c.IncomingData.length = 0 then
    (([] : List Payload), c)
  else
    let sortedPackets := c.IncomingData
    (sortLoop sortedPackets, c)

theorem innerLoop_snd_length (x : Payload) (ys : List Payload) :
    (innerLoop x ys).2.length = ys.length := by
  induction ys generalizing x with
  | nil => simp [innerLoop]
  | cons y ys ih =>
    by_cases h : x.length < y.length <;> simp [innerLoop, h, ih]

theorem innerLoop_perm (x : Payload) (ys : List Payload) :
    List.Perm ((innerLoop x ys).1 :: (innerLoop x ys).2) (x :: ys) := by
  induction ys generalizing x with
  | nil => simp [innerLoop]
  | cons y ys ih =>
    by_cases h : x.length < y.length
    · simp only [innerLoop, if_pos h]
      exact (List.Perm.swap x (innerLoop y ys).1 (innerLoop y ys).2).trans
        ((ih y).cons x)
    · simp only [innerLoop, if_neg h]
      exact ((List.Perm.swap y (innerLoop x ys).1 (innerLoop x ys).2).trans
        ((ih x).cons y)).trans (List.Perm.swap x y ys)

theorem innerLoop_fst_le (x : Payload) (ys : List Payload) :
    x.length ≤ (innerLoop x ys).1.length := by
  induction ys generalizing x with
  | nil => simp [innerLoop]
  | cons y ys ih =>
    by_cases h : x.length < y.length
    · simpa [innerLoop, h] using (Nat.le_of_lt h).trans (ih y)
    · simpa [innerLoop, h] using ih x

theorem innerLoop_snd_le (x : Payload) (ys : List Payload) :
    ∀ z ∈ (innerLoop x ys).2, z.length ≤ (innerLoop x ys).1.length := by
  induction ys generalizing x with
  | nil => simp [innerLoop]
  | cons y ys ih =>
    by_cases h : x.length < y.length
    · simp only [innerLoop, if_pos h]
      intro z hz
      rcases List.mem_cons.mp hz with hz | hz
      · subst hz
        exact (Nat.le_of_lt h).trans (innerLoop_fst_le y ys)
      · exact ih y z hz
    · simp only [innerLoop, if_neg h]
      intro z hz
      rcases List.mem_cons.mp hz with hz | hz
      · subst hz
        exact (Nat.not_lt.mp h).trans (innerLoop_fst_le x ys)
      · exact ih x z hz

theorem sortLoopAux_perm :
    ∀ (n : Nat) (l : List Payload), l.length ≤ n →
      List.Perm (sortLoopAux n l) l := by
  intro n
  induction n with
  | zero => intro l _; simp [sortLoopAux]
  | succ n ih =>
    intro l h
    cases l with
    | nil => simp [sortLoopAux]
    | cons x xs =>
      simp only [sortLoopAux]
      have hlen : (innerLoop x xs).2.length ≤ n := by
        rw [innerLoop_snd_length]
        exact Nat.le_of_succ_le_succ (by simpa using h)
      exact ((ih _ hlen).cons _).trans (innerLoop_perm x xs)

theorem sortLoopAux_sorted :
    ∀ (n : Nat) (l : List Payload), l.length ≤ n →
      List.Sorted (fun a b : Payload => b.length ≤ a.length) (sortLoopAux n l) := by
  intro n
  induction n with
  | zero =>
    intro l h
    have : l = [] := List.length_eq_zero.mp (Nat.le_zero.mp h)
    subst this
    simp [sortLoopAux]
  | succ n ih =>
    intro l h
    cases l with
    | nil => simp [sortLoopAux]
    | cons x xs =>
      simp only [sortLoopAux]
      have hlen : (innerLoop x xs).2.length ≤ n := by
        rw [innerLoop_snd_length]
        exact Nat.le_of_succ_le_succ (by simpa using h)
      refine List.sorted_cons.mpr ⟨?_, ih _ hlen⟩
      intro b hb
      have hb' : b ∈ (innerLoop x xs).2 :=
        (sortLoopAux_perm n _ hlen).mem_iff.mp hb
      exact innerLoop_snd_le x xs b hb'

theorem sortLoop_perm (l : List Payload) : List.Perm (sortLoop l) l :=
  sortLoopAux_perm l.length l (Nat.le_refl _)

theorem sortLoop_sorted (l : List Payload) :
    List.Sorted (fun a b : Payload => b.length ≤ a.length) (sortLoop l) :=
  sortLoopAux_sorted l.length l (Nat.le_refl _)

/-- Spec-side definition for candidate ordering (§4.4): a stable descending
sort of the chunks by byte length, realised by insertion sort, which keeps
chunks of equal length in their original insertion order.  This definition
follows the specification's words and exists only to be compared with the
source's `GetIncomingDataSortedByLength`. -/
def stableSortedByLengthDesc (l : List Payload) : List Payload :=
  List.insertionSort (fun a b : Payload => b.length ≤ a.length) l

/-- One captured frame as seen by `handlePacket`: whether the packet has an
IPv4 layer and a TCP layer, the header fields the handler reads, the TCP
payload, and the FIN/RST control bits. -/
structure Frame where
  hasIPv4 : Bool
  hasTCP  : Bool
  srcIP   : String
  dstIP   : String
  srcPort : Nat
  dstPort : Nat
  payload : Payload
  fin     : Bool
  rst     : Bool
deriving DecidableEq

/-- go/network capture file: the state of a `PacketCaptureService` that
`handlePacket` reads and writes — the configured target `ip` and `port`
and the `connections` map (association list with in-place overwrite). -/
structure PacketCaptureService where
  ip          : String
  port        : Nat
  connections : List (ConnectionKey × Connection)
deriving DecidableEq

/-- Lookup in the `connections` map. -/
def lookupConn : List (ConnectionKey × Connection) → ConnectionKey → Option Connection
  | [], _ => none
  | (k', c) :: rest, k => if k' = k then some c else lookupConn rest k

/-- Map store `pcs.connections[key] = conn`: overwrite in place, or append
a new binding. -/
def insertConn : List (ConnectionKey × Connection) → ConnectionKey → Connection →
    List (ConnectionKey × Connection)
  | [], k, c => [(k, c)]
  | (k', c') :: rest, k, c =>
    if k' = k then (k, c) :: rest else (k', c') :: insertConn rest k c

/-- The key derived from a frame, as `conn.Key()` computes it inside
`handlePacket`. -/
def frameKey (p : Frame) : ConnectionKey :=
  { SrcIP := p.srcIP, DstIP := p.dstIP, SrcPort := p.srcPort, DstPort := p.dstPort }

/-- The record stored for a newly observed key, before the common updates:
addresses and ports from the frame, `StartTime` and `LastSeen` set to the
current instant, no payload chunks yet. -/
def freshConn (now : Nat) (p : Frame) : Connection :=
  { SrcIP := p.srcIP, DstIP := p.dstIP, SrcPort := p.srcPort, DstPort := p.dstPort,
    StartTime := now, LastSeen := now, IncomingData := [], IsFinished := false }

/-- The acceptance test of `handlePacket`: the frame has IPv4 and TCP
layers, its source address equals the configured target address and its
source port equals the configured target port after the `uint16`
truncation `layers.TCPPort(pcs.port)` performs. -/
def acceptsFrame (ip : String) (port : Nat) (p : Frame) : Prop :=
  p.hasIPv4 = true ∧ p.hasTCP = true ∧ p.srcIP = ip ∧ p.srcPort = port % 65536

instance (ip : String) (port : Nat) (p : Frame) : Decidable (acceptsFrame ip port p) := by
  unfold acceptsFrame; infer_instance

/-- go/network capture file: `func (pcs *PacketCaptureService) handlePacket`.
Returns the updated service state together with the list of connections
sent on `connCloseNotifyChannel` while handling this frame.  The FIN/RST
branch of the source contains only a `TODO` comment, so no notification is
ever emitted. -/
def PacketCaptureService.handlePacket (pcs : PacketCaptureService) (now : Nat)
    (packet : Frame) : PacketCaptureService × List Connection :=
  if !packet.hasIPv4 then (pcs, [])
  else if !packet.hasTCP then (pcs, [])
  else if packet.srcIP ≠ pcs.ip ∨ packet.srcPort ≠ pcs.port % 65536 then (pcs, [])
  else
    let conn : Connection :=
      { SrcIP := packet.srcIP, DstIP := packet.dstIP,
        SrcPort := packet.srcPort, DstPort := packet.dstPort,
        StartTime := 0, LastSeen := 0, IncomingData := [], IsFinished := false }
    let key := conn.Key
    let existingConn : Connection :=
      match lookupConn pcs.connections key with
      | some existing => existing
      | none => { conn with StartTime := now, LastSeen := now }
    let existingConn := { existingConn with LastSeen := now }
    let existingConn :=
      if packet.payload ≠ [] then
        { existingConn with IncomingData := existingConn.IncomingData ++ [packet.payload] }
      else existingConn
    ({ pcs with connections := insertConn pcs.connections key existingConn },
     ([] : List Connection))

/-- Sequential frame handling: fold `handlePacket` over a list of
(timestamp, frame) pairs. -/
def processFrames (pcs : PacketCaptureService) : List (Nat × Frame) → PacketCaptureService
  | [] => pcs
  | (now, p) :: rest => processFrames (pcs.handlePacket now p).1 rest

/-- The chunk sequence currently stored for key `k` (empty when no record
exists). -/
def dataAt (pcs : PacketCaptureService) (k : ConnectionKey) : List Payload :=
  match lookupConn pcs.connections k with
  | some c => c.IncomingData
  | none => []

/-- The payloads of exactly the accepted, key-`k`, non-empty-payload frames
of a frame sequence, in order. -/
def payloadsFor (ip : String) (port : Nat) (k : ConnectionKey) :
    List (Nat × Frame) → List Payload
  | [] => []
  | (_, p) :: rest =>
    if acceptsFrame ip port p ∧ frameKey p = k ∧ p.payload ≠ [] then
      p.payload :: payloadsFor ip port k rest
    else
      payloadsFor ip port k rest

/-- ragnarok.CharacterServerInfo (declared outside src/): the fields the
rest of the program reads — name, address URL, and the player count or
status code. -/
structure CharacterServerInfo where
  Name    : String
  Url     : String
  Players : Int
deriving DecidableEq

/-- An event the `select` of `App.StartCapture` can wake up on: a value
received on the connection-close notification channel, or cancellation of
the service context. -/
inductive CaptureEvent where
  | connClose (conn : Connection)
  | ctxDone
deriving DecidableEq

/-- app.go, inner `for _, data := range sortedIncomingData` loop of
`StartCapture`: decode candidate chunks one at a time, in order, each chunk
independently; return the first non-nil decode result, trying no further
chunk after it; `none` when every chunk fails. -/
def scanChunks (decode : Payload → Option (List CharacterServerInfo)) :
    List Payload → Option (List CharacterServerInfo)
  | [] => none
  | data :: rest =>
    match decode data with
    | some charServerInfoList => some charServerInfoList
    | none => scanChunks decode rest

/-- app.go, the `for { select { ... } }` consumer loop of `StartCapture`
run over an explicit event sequence.  `some (some r)` means the loop
returned the decoded list `r`; `some none` means it returned `nil` via the
`ctx.Done()` branch; `none` means the event list was exhausted with the
loop still blocked. -/
def startCaptureLoop (decode : Payload → Option (List CharacterServerInfo)) :
    List CaptureEvent → Option (Option (List CharacterServerInfo))
  | [] => none
  | CaptureEvent.connClose connection :: rest =>
    match scanChunks decode (connection.GetIncomingDataSortedByLength).1 with
    | some charServerInfoList => some (some charServerInfoList)
    | none => startCaptureLoop decode rest
  | CaptureEvent.ctxDone :: _ => some none

/-- app.go: the `App` state that `StopCapture` reads and writes. -/
structure App where
  isCapturing          : Bool
  packetCaptureService : Option PacketCaptureService
deriving DecidableEq

/-- app.go: `func (a *App) StopCapture() bool`.  When a service is present
its context is cancelled and the reference is dropped together with the
capture flag; otherwise the no-service branch leaves the state untouched.
Either way the function returns `true`. -/
def App.StopCapture (a : App) : Bool × App :=
  match a.packetCaptureService with
  | some _ => (true, { a with isCapturing := false, packetCaptureService := none })
  | none => (true, a)

/-- frontend CharacterServerTable component: `mapPlayersToStatusText`. -/
def mapPlayersToStatusText (players : Int) : String :=
  if players = 1 then "順暢"
  else if players = 2 then "擁擠"
  else if players = 3 then "爆滿"
  else "Unknown (" ++ toString players ++ ")"

/-- One pcap device as `StartCaptureAllInterfaces` sees it: its name, the
verdict of `IsValidInterface` (whose body is outside src/ and is modelled
from the spec as an abstract boolean: usable, non-loopback), and whether
`pcap.OpenLive` and `handle.SetBPFFilter` would succeed on it. -/
structure Device where
  name     : String
  valid    : Bool
  openOk   : Bool
  filterOk : Bool
deriving DecidableEq

/-- The process-level outcome of launching the per-interface capture
goroutines. -/
inductive CaptureLaunchOutcome where
  | processAborted
  | running (capturingDevices : List String)
deriving DecidableEq

/-- go/network capture file: the error behaviour of
`StartCaptureAllInterfaces`.  Each valid device gets a goroutine; a
goroutine whose `pcap.OpenLive` or `SetBPFFilter` fails calls `log.Fatal`,
which prints and then exits the whole process (the `return` after it is
unreachable), taking every other capture loop down with it.  If no valid
device fails, all valid devices end up capturing. -/
def startCaptureAllInterfaces (devices : List Device) : CaptureLaunchOutcome :=
  let valids := devices.filter (fun d => d.valid)
  if valids.any (fun d => !d.openOk || !d.filterOk) then
    CaptureLaunchOutcome.processAborted
  else
    CaptureLaunchOutcome.running (valids.map (fun d => d.name))

theorem lookupConn_insertConn_self (m : List (ConnectionKey × Connection))
    (k : ConnectionKey) (c : Connection) :
    lookupConn (insertConn m k c) k = some c := by
  induction m with
  | nil => simp [insertConn, lookupConn]
  | cons kc rest ih =>
    obtain ⟨k', c'⟩ := kc
    by_cases h : k' = k <;> simp [insertConn, lookupConn, h, ih]

theorem lookupConn_insertConn_ne (m : List (ConnectionKey × Connection))
    (k : ConnectionKey) (c : Connection) (k' : ConnectionKey) (h : k' ≠ k) :
    lookupConn (insertConn m k c) k' = lookupConn m k' := by
  induction m with
  | nil => simp [insertConn, lookupConn, Ne.symm h]
  | cons kc rest ih =>
    obtain ⟨k0, c0⟩ := kc
    by_cases h0 : k0 = k
    · subst h0
      simp [insertConn, lookupConn, Ne.symm h]
    · by_cases h1 : k0 = k'
      · subst h1
        simp [insertConn, lookupConn, h0, h]
      · simp [insertConn, lookupConn, h0, h1, ih]

theorem handlePacket_rejected (pcs : PacketCaptureService) (now : Nat) (p : Frame)
    (h : ¬ acceptsFrame pcs.ip pcs.port p) :
    pcs.handlePacket now p = (pcs, []) := by
  unfold acceptsFrame at h
  push_neg at h
  by_cases h1 : p.hasIPv4 = true
  · by_cases h2 : p.hasTCP = true
    · have h34 : p.srcIP ≠ pcs.ip ∨ p.srcPort ≠ pcs.port % 65536 := by
        by_cases h3 : p.srcIP = pcs.ip
        · exact Or.inr (h h1 h2 h3)
        · exact Or.inl h3
      simp [PacketCaptureService.handlePacket, h1, h2, h34]
    · simp [PacketCaptureService.handlePacket, h1, Bool.eq_false_iff.mpr h2]
  · simp [PacketCaptureService.handlePacket, Bool.eq_false_iff.mpr h1]

theorem handlePacket_accepted (pcs : PacketCaptureService) (now : Nat) (p : Frame)
    (h : acceptsFrame pcs.ip pcs.port p) :
    pcs.handlePacket now p =
      ({ pcs with
          connections :=
            insertConn pcs.connections (frameKey p)
              (let old := (lookupConn pcs.connections (frameKey p)).getD (freshConn now p)
               if p.payload ≠ [] then
                 { old with LastSeen := now,
                            IncomingData := old.IncomingData ++ [p.payload] }
               else
                 { old with LastSeen := now }) },
       []) := by
  obtain ⟨h1, h2, h3, h4⟩ := h
  have hcond : ¬(p.srcIP ≠ pcs.ip ∨ p.srcPort ≠ pcs.port % 65536) := by
    simp [h3, h4]
  have hkey :
      (Connection.Key
        { SrcIP := p.srcIP, DstIP := p.dstIP, SrcPort := p.srcPort, DstPort := p.dstPort,
          StartTime := 0, LastSeen := 0, IncomingData := [], IsFinished := false }) =
        frameKey p := rfl
  simp only [PacketCaptureService.handlePacket, h1, h2, Bool.not_true, Bool.false_eq_true,
    if_false, if_neg hcond, hkey]
  cases hl : lookupConn pcs.connections (frameKey p) with
  | none =>
    by_cases hp : p.payload = [] <;>
      simp [hl, hp, freshConn, Option.getD]
  | some existing =>
    by_cases hp : p.payload = [] <;>
      simp [hl, hp, Option.getD]

theorem handlePacket_ip_port (pcs : PacketCaptureService) (now : Nat) (p : Frame) :
    (pcs.handlePacket now p).1.ip = pcs.ip ∧ (pcs.handlePacket now p).1.port = pcs.port := by
  by_cases hA : acceptsFrame pcs.ip pcs.port p
  · rw [handlePacket_accepted pcs now p hA]
    exact ⟨rfl, rfl⟩
  · rw [handlePacket_rejected pcs now p hA]
    exact ⟨rfl, rfl⟩

theorem dataAt_handlePacket (pcs : PacketCaptureService) (now : Nat) (p : Frame)
    (k : ConnectionKey) :
    dataAt (pcs.handlePacket now p).1 k =
      dataAt pcs k ++
        (if acceptsFrame pcs.ip pcs.port p ∧ frameKey p = k ∧ p.payload ≠ [] then
          [p.payload]
        else []) := by
  by_cases hA : acceptsFrame pcs.ip pcs.port p
  · rw [handlePacket_accepted pcs now p hA]
    by_cases hk : frameKey p = k
    · subst hk
      simp only [dataAt, lookupConn_insertConn_self]
      cases hl : lookupConn pcs.connections (frameKey p) with
      | none => by_cases hp : p.payload = [] <;> simp [hl, hA, hp, freshConn]
      | some c => by_cases hp : p.payload = [] <;> simp [hl, hA, hp]
    · simp only [dataAt]
      rw [lookupConn_insertConn_ne _ _ _ _ (Ne.symm hk)]
      simp [hk]
  · rw [handlePacket_rejected pcs now p hA]
    simp [hA]

theorem dataAt_processFrames (pcs : PacketCaptureService) (fs : List (Nat × Frame))
    (k : ConnectionKey) :
    dataAt (processFrames pcs fs) k = dataAt pcs k ++ payloadsFor pcs.ip pcs.port k fs := by
  induction fs generalizing pcs with
  | nil => simp [processFrames, payloadsFor]
  | cons f rest ih =>
    obtain ⟨now, p⟩ := f
    have hip := handlePacket_ip_port pcs now p
    simp only [processFrames, payloadsFor]
    rw [ih, hip.1, hip.2, dataAt_handlePacket]
    by_cases hc : acceptsFrame pcs.ip pcs.port p ∧ frameKey p = k ∧ p.payload ≠ [] <;>
      simp [hc, List.append_assoc]

theorem scanChunks_first (decode : Payload → Option (List CharacterServerInfo))
    (pre : List Payload) (hit : Payload) (post : List Payload)
    (r : List CharacterServerInfo)
    (hpre : ∀ d ∈ pre, decode d = none) (hhit : decode hit = some r) :
    scanChunks decode (pre ++ hit :: post) = some r := by
  induction pre with
  | nil => simp [scanChunks, hhit]
  | cons d pre ih =>
    have hd : decode d = none := hpre d (List.mem_cons_self _ _)
    simp only [List.cons_append, scanChunks, hd]
    exact ih (fun d' hd' => hpre d' (List.mem_cons_of_mem _ hd'))

/-- Claim C1 (amended): `GetIncomingDataSortedByLength` returns the chunks
sorted in descending order by byte length, as a permutation of the stored
chunk list; the sort is, however, not stable, so chunks of equal length
may appear out of their original insertion order. -/
theorem GetIncomingDataSortedByLength_sorted_perm (c : Connection) :
    List.Sorted (fun a b : Payload => b.length ≤ a.length)
      (c.GetIncomingDataSortedByLength).1 ∧
    List.Perm (c.GetIncomingDataSortedByLength).1 c.IncomingData := by
  by_cases h : c.IncomingData.length = 0
  · have he : c.IncomingData = [] := List.length_eq_zero.mp h
    simp [Connection.GetIncomingDataSortedByLength, h, he]
  · simp only [Connection.GetIncomingDataSortedByLength, if_neg h]
    exact ⟨sortLoop_sorted _, sortLoop_perm _⟩

/-- Claim C1 counterexample: on the chunk list `[[0,0], [1,1], [5,5,5]]`
(two equal-length chunks followed by a longer one) the source's sort swaps
the longer chunk into the first slot past the first equal-length chunk and
thereby reverses the two equal-length chunks, while a stable descending
sort by length keeps them in insertion order; so the sort is not stable. -/
theorem GetIncomingDataSortedByLength_not_stable :
    (Connection.GetIncomingDataSortedByLength
        { SrcIP := "219.84.200.54", DstIP := "192.168.0.2", SrcPort := 6900, DstPort := 50000,
          StartTime := 0, LastSeen := 0, IncomingData := [[0, 0], [1, 1], [5, 5, 5]],
          IsFinished := false }).1 = [[5, 5, 5], [1, 1], [0, 0]] ∧
    stableSortedByLengthDesc [[0, 0], [1, 1], [5, 5, 5]] = [[5, 5, 5], [0, 0], [1, 1]] ∧
    (Connection.GetIncomingDataSortedByLength
        { SrcIP := "219.84.200.54", DstIP := "192.168.0.2", SrcPort := 6900, DstPort := 50000,
          StartTime := 0, LastSeen := 0, IncomingData := [[0, 0], [1, 1], [5, 5, 5]],
          IsFinished := false }).1 ≠
      stableSortedByLengthDesc [[0, 0], [1, 1], [5, 5, 5]] := by
  decide

/-- Claim C2: a frame produces or updates a flow record only when it has
IPv4 and TCP layers, its source address equals the configured target
address and its source port equals the configured target port; any other
frame leaves the service state (flow table included) completely unchanged
and emits nothing. -/
theorem handlePacket_only_target_frames_update (pcs : PacketCaptureService) (now : Nat)
    (p : Frame) (hport : pcs.port < 65536)
    (h : ¬(p.hasIPv4 = true ∧ p.hasTCP = true ∧ p.srcIP = pcs.ip ∧ p.srcPort = pcs.port)) :
    pcs.handlePacket now p = (pcs, []) := by
  apply handlePacket_rejected
  unfold acceptsFrame
  rw [Nat.mod_eq_of_lt hport]
  exact h

theorem handlePacket_only_target_frames_update_witness :
    PacketCaptureService.handlePacket
        { ip := "219.84.200.54", port := 6900, connections := [] } 0
        { hasIPv4 := false, hasTCP := true, srcIP := "219.84.200.54", dstIP := "10.0.0.7",
          srcPort := 6900, dstPort := 50000, payload := [1, 2], fin := false, rst := false } =
      ({ ip := "219.84.200.54", port := 6900, connections := [] }, []) :=
  handlePacket_only_target_frames_update _ 0 _ (by decide) (by decide)

/-- Claim C3: processing any frame sequence, the chunk list stored under a
4-tuple key `k` grows by exactly the payloads of the accepted, non-empty
frames whose 4-tuple is `k`, in order (so all frames sharing a 4-tuple
accumulate into the one record under that key); and a single frame never
touches the record stored under any key other than its own 4-tuple. -/
theorem flow_accumulation_by_key :
    (∀ (pcs : PacketCaptureService) (fs : List (Nat × Frame)) (k : ConnectionKey),
        dataAt (processFrames pcs fs) k = dataAt pcs k ++ payloadsFor pcs.ip pcs.port k fs) ∧
    (∀ (pcs : PacketCaptureService) (now : Nat) (p : Frame) (k : ConnectionKey),
        k ≠ frameKey p →
        lookupConn (pcs.handlePacket now p).1.connections k = lookupConn pcs.connections k) := by
  constructor
  · exact dataAt_processFrames
  · intro pcs now p k hk
    by_cases hA : acceptsFrame pcs.ip pcs.port p
    · rw [handlePacket_accepted pcs now p hA]
      exact lookupConn_insertConn_ne _ _ _ _ hk
    · rw [handlePacket_rejected pcs now p hA]

theorem flow_accumulation_by_key_witness :
    dataAt
        (processFrames { ip := "5.6.7.8", port := 7000, connections := [] }
          [(1,
            { hasIPv4 := true, hasTCP := true, srcIP := "5.6.7.8", dstIP := "10.0.0.9",
              srcPort := 7000, dstPort := 60000, payload := [42], fin := false, rst := false })])
        { SrcIP := "5.6.7.8", DstIP := "10.0.0.9", SrcPort := 7000, DstPort := 60000 } =
      dataAt { ip := "5.6.7.8", port := 7000, connections := [] }
          { SrcIP := "5.6.7.8", DstIP := "10.0.0.9", SrcPort := 7000, DstPort := 60000 } ++
        payloadsFor "5.6.7.8" 7000
          { SrcIP := "5.6.7.8", DstIP := "10.0.0.9", SrcPort := 7000, DstPort := 60000 }
          [(1,
            { hasIPv4 := true, hasTCP := true, srcIP := "5.6.7.8", dstIP := "10.0.0.9",
              srcPort := 7000, dstPort := 60000, payload := [42], fin := false, rst := false })] ∧
    lookupConn
        (PacketCaptureService.handlePacket { ip := "5.6.7.8", port := 7000, connections := [] } 1
          { hasIPv4 := true, hasTCP := true, srcIP := "5.6.7.8", dstIP := "10.0.0.9",
            srcPort := 7000, dstPort := 60000, payload := [42], fin := false,
            rst := false }).1.connections
        { SrcIP := "5.6.7.8", DstIP := "10.0.0.9", SrcPort := 7000, DstPort := 1 } =
      lookupConn ({ ip := "5.6.7.8", port := 7000, connections := [] } :
          PacketCaptureService).connections
        { SrcIP := "5.6.7.8", DstIP := "10.0.0.9", SrcPort := 7000, DstPort := 1 } :=
  ⟨flow_accumulation_by_key.1 _ _ _, flow_accumulation_by_key.2 _ 1 _ _ (by decide)⟩

/-- Claim C4: the claim states that an interface whose open or filter
installation fails is the only loop lost; the source instead reaches
`log.Fatal`, which exits the whole process, so a single failing interface
takes every other interface's capture down with it.  This theorem
evaluates the embedded launch behaviour at the failing input: two valid
devices, the first of which fails to open. -/
theorem startCaptureAllInterfaces_open_failure_aborts_process :
    startCaptureAllInterfaces
        [{ name := "eth0", valid := true, openOk := false, filterOk := true },
         { name := "eth1", valid := true, openOk := true, filterOk := true }] =
      CaptureLaunchOutcome.processAborted ∧
    startCaptureAllInterfaces
        [{ name := "eth0", valid := true, openOk := false, filterOk := true },
         { name := "eth1", valid := true, openOk := true, filterOk := true }] ≠
      CaptureLaunchOutcome.running ["eth1"] := by
  decide

/-- Claim C5: for an accepted frame the record stored under the frame's
4-tuple after `handlePacket` is the previous record (or, on first sight,
the fresh record) with its `LastSeen` timestamp set to the current instant
and, exactly when the TCP payload is non-empty, that payload appended
byte-for-byte as one new chunk; an empty payload changes nothing but
`LastSeen`. -/
theorem handlePacket_appends_exact_payload (pcs : PacketCaptureService) (now : Nat)
    (p : Frame) (h : acceptsFrame pcs.ip pcs.port p) :
    lookupConn (pcs.handlePacket now p).1.connections (frameKey p) =
      some
        (let old := (lookupConn pcs.connections (frameKey p)).getD (freshConn now p)
         if p.payload ≠ [] then
           { old with LastSeen := now, IncomingData := old.IncomingData ++ [p.payload] }
         else
           { old with LastSeen := now }) := by
  rw [handlePacket_accepted pcs now p h]
  exact lookupConn_insertConn_self _ _ _

theorem handlePacket_appends_exact_payload_witness :
    lookupConn
        (PacketCaptureService.handlePacket { ip := "9.9.9.9", port := 6900, connections := [] } 4
          { hasIPv4 := true, hasTCP := true, srcIP := "9.9.9.9", dstIP := "10.1.1.1",
            srcPort := 6900, dstPort := 30000, payload := [7, 8], fin := false,
            rst := false }).1.connections
        (frameKey
          { hasIPv4 := true, hasTCP := true, srcIP := "9.9.9.9", dstIP := "10.1.1.1",
            srcPort := 6900, dstPort := 30000, payload := [7, 8], fin := false, rst := false }) =
      some
        (let old :=
          (lookupConn ({ ip := "9.9.9.9", port := 6900, connections := [] } :
              PacketCaptureService).connections
            (frameKey
              { hasIPv4 := true, hasTCP := true, srcIP := "9.9.9.9", dstIP := "10.1.1.1",
                srcPort := 6900, dstPort := 30000, payload := [7, 8], fin := false,
                rst := false })).getD
            (freshConn 4
              { hasIPv4 := true, hasTCP := true, srcIP := "9.9.9.9", dstIP := "10.1.1.1",
                srcPort := 6900, dstPort := 30000, payload := [7, 8], fin := false,
                rst := false })
         if ({ hasIPv4 := true, hasTCP := true, srcIP := "9.9.9.9", dstIP := "10.1.1.1",
                srcPort := 6900, dstPort := 30000, payload := [7, 8], fin := false,
                rst := false } : Frame).payload ≠ [] then
           { old with LastSeen := 4,
                      IncomingData := old.IncomingData ++ [([7, 8] : Payload)] }
         else
           { old with LastSeen := 4 }) :=
  handlePacket_appends_exact_payload _ 4 _ (by decide)

/-- Claim C6: when the consumer receives a completed flow whose sorted
chunk list splits as `pre ++ hit :: post` with every chunk of `pre`
failing to decode and `hit` decoding to `r`, the session loop returns `r`
immediately — whatever `post` contains and whatever events would follow,
so no chunk after the first decodable one is ever decoded. -/
theorem firstDecodableChunkWins (decode : Payload → Option (List CharacterServerInfo))
    (pre : List Payload) (hit : Payload) (post : List Payload)
    (r : List CharacterServerInfo) (conn : Connection) (evs : List CaptureEvent)
    (hpre : ∀ d ∈ pre, decode d = none) (hhit : decode hit = some r)
    (hsorted : (conn.GetIncomingDataSortedByLength).1 = pre ++ hit :: post) :
    startCaptureLoop decode (CaptureEvent.connClose conn :: evs) = some (some r) := by
  simp only [startCaptureLoop, hsorted, scanChunks_first decode pre hit post r hpre hhit]

/-- Decode stub used only to witness the consumer-loop theorem: matches
exactly the length-2 candidate chunks. -/
def decodeLenTwo (d : Payload) : Option (List CharacterServerInfo) :=
  if d.length = 2 then some [{ Name := "Chaos", Url := "1.2.3.4:6900", Players := 3 }]
  else none

theorem firstDecodableChunkWins_witness :
    startCaptureLoop decodeLenTwo
        [CaptureEvent.connClose
          { SrcIP := "1.2.3.4", DstIP := "10.0.0.1", SrcPort := 6900, DstPort := 40000,
            StartTime := 0, LastSeen := 0, IncomingData := [[1], [1, 2], [9, 9, 9]],
            IsFinished := false }] =
      some (some [{ Name := "Chaos", Url := "1.2.3.4:6900", Players := 3 }]) :=
  firstDecodableChunkWins decodeLenTwo [[9, 9, 9]] [1, 2] [[1]] _ _ []
    (by decide) (by decide) (by decide)

/-- Claim C7: the status-code renderer is a total function on the
integers, mapping 1 to the comfortable/low text, 2 to the crowded text, 3
to the full text, and every other code to the explicit marker
`Unknown (code)` that embeds the code value, so no code is dropped. -/
theorem mapPlayersToStatusText_cases (players : Int) :
    (players = 1 → mapPlayersToStatusText players = "順暢") ∧
    (players = 2 → mapPlayersToStatusText players = "擁擠") ∧
    (players = 3 → mapPlayersToStatusText players = "爆滿") ∧
    (players ≠ 1 → players ≠ 2 → players ≠ 3 →
      mapPlayersToStatusText players = "Unknown (" ++ toString players ++ ")") :=
  ⟨fun h => by simp [mapPlayersToStatusText, h],
   fun h => by simp [mapPlayersToStatusText, h],
   fun h => by simp [mapPlayersToStatusText, h],
   fun h1 h2 h3 => by simp [mapPlayersToStatusText, h1, h2, h3]⟩

theorem mapPlayersToStatusText_cases_witness :
    ((7 : Int) = 1 → mapPlayersToStatusText 7 = "順暢") ∧
    ((7 : Int) = 2 → mapPlayersToStatusText 7 = "擁擠") ∧
    ((7 : Int) = 3 → mapPlayersToStatusText 7 = "爆滿") ∧
    ((7 : Int) ≠ 1 → (7 : Int) ≠ 2 → (7 : Int) ≠ 3 →
      mapPlayersToStatusText 7 = "Unknown (" ++ toString (7 : Int) ++ ")") :=
  mapPlayersToStatusText_cases 7

/-- Claim C8: `StopCapture` always returns `true`; with no active service
it takes the no-service branch and leaves the state unchanged; with an
active service it clears the capture flag and the service reference; and a
second call after any first call is a no-op that still returns `true`. -/
theorem StopCapture_always_true_idempotent (a : App) :
    (a.StopCapture).1 = true ∧
    (a.packetCaptureService = none → (a.StopCapture).2 = a) ∧
    (∀ pcs, a.packetCaptureService = some pcs →
      (a.StopCapture).2 = { a with isCapturing := false, packetCaptureService := none }) ∧
    (a.StopCapture).2.StopCapture = (true, (a.StopCapture).2) := by
  obtain ⟨cap, svc⟩ := a
  cases svc <;> simp [App.StopCapture]

theorem StopCapture_always_true_idempotent_witness :
    ((App.StopCapture
        { isCapturing := true,
          packetCaptureService := some { ip := "x", port := 1, connections := [] } }).1
      = true) ∧
    (({ isCapturing := true,
        packetCaptureService := some { ip := "x", port := 1, connections := [] } } :
          App).packetCaptureService = none →
      (App.StopCapture
          { isCapturing := true,
            packetCaptureService := some { ip := "x", port := 1, connections := [] } }).2
        = { isCapturing := true,
            packetCaptureService := some { ip := "x", port := 1, connections := [] } }) ∧
    (∀ pcs,
      ({ isCapturing := true,
         packetCaptureService := some { ip := "x", port := 1, connections := [] } } :
           App).packetCaptureService = some pcs →
      (App.StopCapture
          { isCapturing := true,
            packetCaptureService := some { ip := "x", port := 1, connections := [] } }).2
        = { ({ isCapturing := true,
               packetCaptureService := some { ip := "x", port := 1, connections := [] } } :
                 App) with
            isCapturing := false, packetCaptureService := none }) ∧
    (App.StopCapture
        (App.StopCapture
          { isCapturing := true,
            packetCaptureService := some { ip := "x", port := 1, connections := [] } }).2
      = (true,
        (App.StopCapture
          { isCapturing := true,
            packetCaptureService := some { ip := "x", port := 1, connections := [] } }).2)) :=
  StopCapture_always_true_idempotent _

/-- Claim C9: `handlePacket` never emits on the connection-close
notification channel (the FIN/RST branch has an empty body), and the
consumer loop, run on any event sequence free of close notifications, can
never return a decoded record list — its only possible return value is
`nil` via the cancellation branch. -/
theorem noCloseNotificationEverEmitted :
    (∀ (pcs : PacketCaptureService) (now : Nat) (p : Frame),
        (pcs.handlePacket now p).2 = []) ∧
    (∀ (decode : Payload → Option (List CharacterServerInfo)) (evs : List CaptureEvent),
        (∀ c : Connection, CaptureEvent.connClose c ∉ evs) →
        ∀ r : List CharacterServerInfo, startCaptureLoop decode evs ≠ some (some r)) := by
  constructor
  · intro pcs now p
    by_cases hA : acceptsFrame pcs.ip pcs.port p
    · rw [handlePacket_accepted pcs now p hA]
    · rw [handlePacket_rejected pcs now p hA]
  · intro decode evs
    induction evs with
    | nil => intro _ r; simp [startCaptureLoop]
    | cons e rest ih =>
      intro h r
      cases e with
      | connClose c => exact absurd (List.mem_cons_self _ _) (h c)
      | ctxDone => simp [startCaptureLoop]

theorem noCloseNotificationEverEmitted_witness :
    (PacketCaptureService.handlePacket { ip := "219.84.200.54", port := 6900, connections := [] }
        3
        { hasIPv4 := true, hasTCP := true, srcIP := "219.84.200.54", dstIP := "10.0.0.7",
          srcPort := 6900, dstPort := 50000, payload := [1], fin := true, rst := false }).2 =
      [] ∧
    startCaptureLoop (fun _ => none) [CaptureEvent.ctxDone] ≠
      some (some ([] : List CharacterServerInfo)) :=
  ⟨noCloseNotificationEverEmitted.1 _ 3 _,
   noCloseNotificationEverEmitted.2 (fun _ => none) [CaptureEvent.ctxDone]
     (by intro c hc; simp at hc) []⟩

/-- Claim C10: `GetIncomingDataSortedByLength` leaves the connection it is
called on unchanged (it sorts a fresh copy of the chunk slice), and its
result is empty exactly when `IncomingData` is empty. -/
theorem GetIncomingDataSortedByLength_no_mutation (c : Connection) :
    (c.GetIncomingDataSortedByLength).2 = c ∧
    ((c.GetIncomingDataSortedByLength).1 = [] ↔ c.IncomingData = []) := by
  constructor
  · by_cases h : c.IncomingData.length = 0 <;>
      simp [Connection.GetIncomingDataSortedByLength, h]
  · by_cases h : c.IncomingData.length = 0
    · have he : c.IncomingData = [] := List.length_eq_zero.mp h
      simp [Connection.GetIncomingDataSortedByLength, h, he]
    · have hne : c.IncomingData ≠ [] := fun he => h (by simp [he])
      simp only [Connection.GetIncomingDataSortedByLength, if_neg h]
      constructor
      · intro hempty
        have hlen := (sortLoop_perm c.IncomingData).length_eq
        rw [hempty] at hlen
        exact absurd (List.length_eq_zero.mp hlen.symm) hne
      · intro he
        exact absurd he hne

theorem GetIncomingDataSortedByLength_no_mutation_witness :
    (Connection.GetIncomingDataSortedByLength
        { SrcIP := "35.229.252.108", DstIP := "10.2.2.2", SrcPort := 6900, DstPort := 44444,
          StartTime := 0, LastSeen := 0, IncomingData := [[3], [4, 5]],
          IsFinished := false }).2 =
      { SrcIP := "35.229.252.108", DstIP := "10.2.2.2", SrcPort := 6900, DstPort := 44444,
        StartTime := 0, LastSeen := 0, IncomingData := [[3], [4, 5]], IsFinished := false } ∧
    ((Connection.GetIncomingDataSortedByLength
        { SrcIP := "35.229.252.108", DstIP := "10.2.2.2", SrcPort := 6900, DstPort := 44444,
          StartTime := 0, LastSeen := 0, IncomingData := [[3], [4, 5]],
          IsFinished := false }).1 = [] ↔
      ({ SrcIP := "35.229.252.108", DstIP := "10.2.2.2", SrcPort := 6900, DstPort := 44444,
          StartTime := 0, LastSeen := 0, IncomingData := [[3], [4, 5]],
          IsFinished := false } : Connection).IncomingData = []) :=
  GetIncomingDataSortedByLength_no_mutation _
